import Mathlib

/-!
Shallow embedding of the data-entity computation and caching core of the
nionswift repository (src/model/DataItem.py and src/model/Symbolic.py),
together with proofs checking the specification's claims against it.

Conventions:
* numpy arrays are modelled as `NDArr` (shape, dtype, flat integer payload);
* Python `None` becomes `Option`; Python `assert` failures become `Except.error`;
* machinery that lives in modules outside the provided sources (the Operation
  interface, the Image shape helpers, backing storage) is modelled from the
  spec, and each such definition says so in its doc comment;
* everything else is translated directly from the Python source.
-/

namespace Nion

/-- Element dtypes relevant to the model (DataItem.py classifies dtypes only
through the Image helpers; we keep a small closed set). -/
inductive Dtype where
  | float64
  | int32
  | uint8
  | complex128
deriving DecidableEq, Repr

/-- A numpy array: shape, dtype and a flat payload of scalars.  The payload
lets theorems distinguish arrays produced by different operation orders. -/
structure NDArr where
  shape : List Nat
  dtype : Dtype
  payload : List Int
deriving DecidableEq, Repr

/-- A per-axis calibration (offset, scale, unit string), per
Calibration.Calibration.  The default constructor gives the identity
calibration. -/
structure Calibration where
  offset : Int := 0
  scale : Int := 1
  units : String := ""
deriving DecidableEq, Repr

/-- Modelled from the spec: Image.is_shape_and_dtype_rgb — uint8 data whose
last axis is the 3-component colour axis. -/
def isShapeAndDtypeRgb (shape : List Nat) (dtype : Dtype) : Bool :=
  dtype == Dtype.uint8 && shape.getLast? == some 3

/-- Modelled from the spec: Image.is_shape_and_dtype_rgba — uint8 data whose
last axis is the 4-component colour axis. -/
def isShapeAndDtypeRgba (shape : List Nat) (dtype : Dtype) : Bool :=
  dtype == Dtype.uint8 && shape.getLast? == some 4

/-- Modelled from the spec: Image.is_shape_and_dtype_rgb_type. -/
def isShapeAndDtypeRgbType (shape : List Nat) (dtype : Dtype) : Bool :=
  isShapeAndDtypeRgb shape dtype || isShapeAndDtypeRgba shape dtype

/-- Modelled from the spec: Image.spatial_shape_from_shape_and_dtype — the
shape without the colour-component axis for rgb-type data, the whole shape
otherwise. -/
def spatialShapeFromShapeAndDtype (shape : List Nat) (dtype : Dtype) : List Nat :=
  if isShapeAndDtypeRgbType shape dtype then shape.dropLast else shape

/-- Modelled from the spec: the external Operation interface of §6 — an
enabled flag, a data-processing function and the pure shape/dtype transfer
function.  Per §4.1 a disabled operation does not transform the data, so
`process_data` applies `transform` only when enabled. -/
structure OperationItem where
  enabled : Bool
  transform : NDArr → NDArr
  shapeTransfer : List Nat → Dtype → List Nat × Dtype

/-- Modelled from the spec: Operation.process_data — the identity for a
disabled operation, the underlying transformation otherwise. -/
def OperationItem.process_data (op : OperationItem) (a : NDArr) : NDArr :=
  if op.enabled then op.transform a else a

/-- Modelled from the spec: Operation.get_processed_data_shape_and_dtype. -/
def OperationItem.processedShapeAndDtype (op : OperationItem) (s : List Nat) (t : Dtype) :
    List Nat × Dtype :=
  op.shapeTransfer s t

/-- The set of change kinds recorded by the change accumulator
(DATA / METADATA / DISPLAYS / SOURCE enumeration in DataItem.py). -/
structure ChangeSet where
  hasData : Bool
  hasMetadata : Bool
  hasDisplays : Bool
  hasSource : Bool
deriving DecidableEq, Repr

def ChangeSet.empty : ChangeSet := ⟨false, false, false, false⟩

/-- Set union of two change sets (Python set.update). -/
def ChangeSet.union (a b : ChangeSet) : ChangeSet :=
  ⟨a.hasData || b.hasData, a.hasMetadata || b.hasMetadata,
   a.hasDisplays || b.hasDisplays, a.hasSource || b.hasSource⟩

def dataChange : ChangeSet := ⟨true, false, false, false⟩

def metadataChange : ChangeSet := ⟨false, true, false, false⟩

def sourceChange : ChangeSet := ⟨false, false, false, true⟩

/-- The state of one DataItem, restricted to the fields the claims are about
(master data, data source link, operation chain, calibrations, derived-data
cache, ref count, change accumulator, transaction count, backing storage).
`dataSourceAttached` mirrors `self.__data_source is not None`; when an actual
source chain is needed, entities are arranged in a list whose head is the
entity and whose tail is its source chain. `datastore` holds the array the
backing storage would reload (`none` = no datastore attached). -/
structure DataItem where
  closed : Bool
  hasMasterData : Bool
  masterData : Option NDArr
  masterDataShape : Option (List Nat)
  masterDataDtype : Option Dtype
  dataSourceAttached : Bool
  operations : List OperationItem
  intrinsicSpatialCalibrations : List Calibration
  cachedData : Option NDArr
  cachedDataDirty : Bool
  dataRangeDirty : Bool
  dataRefCount : Int
  changeCount : Int
  changes : ChangeSet
  transactionCount : Nat
  datastore : Option NDArr

/-- A chain is well formed when each entity's `dataSourceAttached` flag agrees
with the presence of a next (source) entity in the list. -/
def chainOk : List DataItem → Prop
  | [] => True
  | d :: rest => (d.dataSourceAttached = !rest.isEmpty) ∧ chainOk rest

/-- DataItem.__clear_cached_data: marks the derived-data cache dirty and the
cached data range dirty. -/
def clearCachedData (d : DataItem) : DataItem :=
  { d with cachedDataDirty := true, dataRangeDirty := true }

/-- Events visible to observers of one data item, used to state the change
batching claims: a cache invalidation, and a
`data_item_content_changed` notification carrying a change set. -/
inductive ChangeEvent where
  | cacheCleared
  | contentChanged (changes : ChangeSet)
deriving DecidableEq, Repr

/-- The operations a client can perform against the change accumulator:
`beginChanges` / `endChanges` bracket a transaction and `recordChanges`
adds kinds to the pending set (the mutex-protected
`self.__data_item_changes.update(changes)`). -/
inductive ChangeCmd where
  | beginChanges
  | endChanges
  | recordChanges (ch : ChangeSet)

/-- One step of the change accumulator: DataItem.begin_data_item_changes,
DataItem.end_data_item_changes and the set update inside
notify_data_item_content_changed.  `endChanges` at depth one swaps out the
accumulated set, clears the derived caches when DATA or SOURCE was recorded,
and then notifies listeners once with the accumulated set. -/
def stepChange (d : DataItem) : ChangeCmd → DataItem × List ChangeEvent
  | .beginChanges => ({ d with changeCount := d.changeCount + 1 }, [])
  | .recordChanges ch => ({ d with changes := d.changes.union ch }, [])
  | .endChanges =>
      let c := d.changeCount - 1
      if c = 0 then
        let chs := d.changes
        let d1 := { d with changeCount := c, changes := ChangeSet.empty }
        if chs.hasData || chs.hasSource then
          (clearCachedData d1, [.cacheCleared, .contentChanged chs])
        else
          (d1, [.contentChanged chs])
      else
        ({ d with changeCount := c }, [])

/-- Run a sequence of change-accumulator commands, collecting all events. -/
def runChanges (d : DataItem) : List ChangeCmd → DataItem × List ChangeEvent
  | [] => (d, [])
  | c :: cs =>
      ((runChanges (stepChange d c).1 cs).1,
        (stepChange d c).2 ++ (runChanges (stepChange d c).1 cs).2)

/-- DataItem.notify_data_item_content_changed: a begin/record/end triple. -/
def notifyContentChanged (d : DataItem) (ch : ChangeSet) : DataItem × List ChangeEvent :=
  runChanges d [.beginChanges, .recordChanges ch, .endChanges]

/-- The union of all change kinds recorded by a command sequence. -/
def recordedFrom (acc : ChangeSet) : List ChangeCmd → ChangeSet
  | [] => acc
  | .recordChanges ch :: cs => recordedFrom (acc.union ch) cs
  | _ :: cs => recordedFrom acc cs

def recorded (cmds : List ChangeCmd) : ChangeSet := recordedFrom ChangeSet.empty cmds

/-- Depth change contributed by one command. -/
def cmdDelta : ChangeCmd → Int
  | .beginChanges => 1
  | .endChanges => -1
  | .recordChanges _ => 0

/-- `innerOk depth cmds` says that, starting from the given transaction depth,
every prefix of `cmds` keeps the depth at least 1 (so the span never closes
the outermost transaction). -/
def innerOk : Int → List ChangeCmd → Bool
  | _, [] => true
  | depth, c :: cs => decide (1 ≤ depth + cmdDelta c) && innerOk (depth + cmdDelta c) cs

/-- Net depth after running a command list from a starting depth. -/
def depthAfter : Int → List ChangeCmd → Int
  | depth, [] => depth
  | depth, c :: cs => depthAfter (depth + cmdDelta c) cs

/-- DataItem.__load_master_data: reload the raw array from the datastore when
the item is marked as having master data, a datastore is attached, and the
array is not currently in memory. -/
def loadMasterData (d : DataItem) : DataItem :=
  if d.hasMasterData ∧ d.datastore.isSome ∧ d.masterData = none then
    { d with masterData := d.datastore }
  else d

/-- DataItem.__unload_master_data: drop the in-memory raw array (and the
memoized derived-data cache) when no transaction is open, the item has master
data, and a datastore exists to reload it from. -/
def unloadMasterData (d : DataItem) : DataItem :=
  if d.transactionCount = 0 ∧ d.hasMasterData ∧ d.datastore.isSome then
    { d with masterData := none, cachedData := none }
  else d

/-- DataItem.increment_data_ref_count over a source chain (head = the entity,
tail = its source chain).  On the 0 → 1 transition the increment propagates
to the data source if one is attached, otherwise the master data is loaded. -/
def incRefChain : List DataItem → List DataItem
  | [] => []
  | d :: rest =>
      let d1 := { d with dataRefCount := d.dataRefCount + 1 }
      if d.dataRefCount = 0 then
        if d.dataSourceAttached then d1 :: incRefChain rest
        else loadMasterData d1 :: rest
      else d1 :: rest

/-- DataItem.decrement_data_ref_count over a source chain.  On the 1 → 0
transition the decrement propagates to the data source if one is attached,
otherwise an unload is attempted.  The second component counts the calls to
`unloadMasterData` (unload attempts, whether or not they actually unload). -/
def decRefChain : List DataItem → List DataItem × Nat
  | [] => ([], 0)
  | d :: rest =>
      let d1 := { d with dataRefCount := d.dataRefCount - 1 }
      if d.dataRefCount - 1 = 0 then
        if d.dataSourceAttached then
          let (rest', n) := decRefChain rest
          (d1 :: rest', n)
        else (unloadMasterData d1 :: rest, 1)
      else (d1 :: rest, 0)

@[simp] theorem length_incRefChain (c : List DataItem) :
    (incRefChain c).length = c.length := by
  induction c with
  | nil => rfl
  | cons d rest ih =>
      simp only [incRefChain]
      by_cases h0 : d.dataRefCount = 0
      · by_cases hs : d.dataSourceAttached <;> simp [h0, hs, ih]
      · simp [h0]

@[simp] theorem length_decRefChain (c : List DataItem) :
    (decRefChain c).1.length = c.length := by
  induction c with
  | nil => rfl
  | cons d rest ih =>
      simp only [decRefChain]
      by_cases h0 : d.dataRefCount - 1 = 0
      · by_cases hs : d.dataSourceAttached <;> simp [h0, hs, ih]
      · simp [h0]

/-- Apply the operation chain of DataItem.__get_data to an array: the Python
loop `for operation in reversed(operations): data = operation.process_data(data)`.
The second component counts the `process_data` invocations. -/
def applyOpsReversed (ops : List OperationItem) (a : NDArr) : NDArr × Nat :=
  ops.reverse.foldl (fun p op => (op.process_data p.1, p.2 + 1)) (a, 0)

/-- DataItem.__get_data over a source chain.  Returns the updated chain, the
computed (or memoized) derived array, and the number of `process_data`
invocations performed.  A dirty or absent cache triggers recomputation:
start from the in-memory master data, else fetch the source's data inside the
source's `data_ref` (increment, recursive get, decrement), then run the
operation chain; the result is memoized and the dirty flag cleared.
Otherwise the memoized array is returned unchanged. -/
def getDataChain : List DataItem → List DataItem × Option NDArr × Nat
  | [] => ([], none, 0)
  | d :: rest =>
      if d.cachedDataDirty ∨ d.cachedData = none then
        let data0 : Option NDArr := if d.hasMasterData then d.masterData else none
        let fetched : List DataItem × Option NDArr × Nat :=
          match data0 with
          | some a => (rest, some a, 0)
          | none =>
              if d.dataSourceAttached then
                let restA := incRefChain rest
                let (restB, dd, n) := getDataChain restA
                ((decRefChain restB).1, dd, n)
              else (rest, none, 0)
        let rest1 := fetched.1
        let data1 := fetched.2.1
        let n1 := fetched.2.2
        let applied : Option NDArr × Nat :=
          match data1 with
          | some a =>
              if d.operations.isEmpty then (some a, 0)
              else
                let (a', k) := applyOpsReversed d.operations a
                (some a', k)
          | none => (none, 0)
        ({ d with cachedData := applied.1, cachedDataDirty := false } :: rest1,
          applied.1, n1 + applied.2)
      else (d :: rest, d.cachedData, 0)
termination_by c => c.length
decreasing_by
  simp only [length_incRefChain]
  exact Nat.lt_succ_self _

/-- The `data_ref` fetch of the source chain inside DataItem.__get_data:
increment the source's ref count, get its data, decrement. -/
def fetchChain (rest : List DataItem) : List DataItem × Option NDArr × Nat :=
  let restA := incRefChain rest
  let (restB, dd, n) := getDataChain restA
  ((decRefChain restB).1, dd, n)

/-- Fold the enabled operations' shape/dtype transfer over a starting shape
(the loop shared by DataItem.__get_data_shape_and_dtype and
DataItem.sync_operations): definition order, enabled operations only. -/
def applyShapeOps (ops : List OperationItem) (s : List Nat) (t : Dtype) : List Nat × Dtype :=
  ops.foldl (fun st op => if op.enabled then op.shapeTransfer st.1 st.2 else st) (s, t)

/-- DataItem.__get_data_shape_and_dtype over a source chain: the master
shape/dtype, or recursively the source's processed shape/dtype, threaded
through each enabled operation's transfer function in definition order. -/
def dataShapeAndDtypeChain : List DataItem → Option (List Nat × Dtype)
  | [] => none
  | d :: rest =>
      let root : Option (List Nat × Dtype) :=
        if d.hasMasterData then
          match d.masterDataShape, d.masterDataDtype with
          | some s, some t => some (s, t)
          | _, _ => none
        else if d.dataSourceAttached then dataShapeAndDtypeChain rest
        else none
      match root with
      | some (s, t) => some (applyShapeOps d.operations s t)
      | none => none

/-- DataItem.spatial_shape over a source chain. -/
def spatialShapeChain (c : List DataItem) : Option (List Nat) :=
  (dataShapeAndDtypeChain c).map fun p => spatialShapeFromShapeAndDtype p.1 p.2

/-- The while loops of DataItem.sync_intrinsic_spatial_calibrations: append
identity calibrations while the list is short, remove the last entry while it
is long. -/
def padTruncCalibrations (l : List Calibration) (n : Nat) : List Calibration :=
  if l.length < n then l ++ List.replicate (n - l.length) { offset := 0 } else l.take n

/-- The `ndim` computed by DataItem.sync_intrinsic_spatial_calibrations:
the length of the chain's spatial shape, or 0 when there is none. -/
def chainNdim (c : List DataItem) : Nat :=
  match spatialShapeChain c with
  | some l => l.length
  | none => 0

/-- DataItem.sync_intrinsic_spatial_calibrations: resize the intrinsic
spatial calibration list to the length of the entity's spatial shape (the
processed shape of `data_shape_and_dtype`), unless the item is closed. -/
def syncIntrinsicSpatialCalibrations : List DataItem → List DataItem
  | [] => []
  | d :: rest =>
      if d.intrinsicSpatialCalibrations.length ≠ chainNdim (d :: rest) ∧ ¬d.closed then
        { d with intrinsicSpatialCalibrations :=
            padTruncCalibrations d.intrinsicSpatialCalibrations (chainNdim (d :: rest)) } :: rest
      else d :: rest

/-- DataItem.__set_master_data over a source chain (head = the entity).  The
two leading asserts reject closed items and items with an attached data
source; the data, its shape/dtype and the has-master flag are replaced and
the spatial calibrations re-synchronized; the whole body runs inside one
`data_item_changes` transaction which accumulates a METADATA change for each
property notification (the calibration property when the sync resizes, the
data_range property when data is present) plus the final DATA change, and
fires them at exit. -/
def setMasterData (c : List DataItem) (data : Option NDArr) :
    Except String (List DataItem × List ChangeEvent) :=
  match c with
  | [] => .error "no data item"
  | d :: rest =>
      if d.closed ∧ data.isSome then
        .error "assert not self.closed or data is None"
      else if data.isSome ∧ d.dataSourceAttached then
        .error "assert data is None or self.__data_source is None"
      else
        let d1 := { d with masterData := data,
                           masterDataShape := data.map NDArr.shape,
                           masterDataDtype := data.map NDArr.dtype,
                           hasMasterData := data.isSome }
        match syncIntrinsicSpatialCalibrations (d1 :: rest) with
        | [] => .error "unreachable"
        | d2 :: rest2 =>
            let calibChanged := d2.intrinsicSpatialCalibrations ≠ d1.intrinsicSpatialCalibrations
            let cmds := [ChangeCmd.beginChanges]
              ++ (if calibChanged then [ChangeCmd.recordChanges metadataChange] else [])
              ++ (if data.isSome then [ChangeCmd.recordChanges metadataChange] else [])
              ++ [ChangeCmd.recordChanges dataChange, ChangeCmd.endChanges]
            let (d3, evs) := runChanges d2 cmds
            .ok (d3 :: rest2, evs)

/-- DataItem.__set_data_source over a source chain.  Attaching asserts the
entity has no master data; detaching simply drops the source chain.  On
attach, `data_item_content_changed(source, {SOURCE})` re-synchronizes the
spatial calibrations; a SOURCE-only change set contains no DATA so no
notification propagates.  (`sync_operations` only updates the operations'
declared upstream shapes, which this model does not store.) -/
def setDataSource (c : List DataItem) (src : Option (List DataItem)) :
    Except String (List DataItem × List ChangeEvent) :=
  match c with
  | [] => .error "no data item"
  | d :: _rest =>
      if src.isSome ∧ d.hasMasterData then
        .error "assert data_source is None or not self.has_master_data"
      else
        match src with
        | none => .ok ({ d with dataSourceAttached := false } :: [], [])
        | some srcChain =>
            .ok (syncIntrinsicSpatialCalibrations
              ({ d with dataSourceAttached := true } :: srcChain), [])

/-- The mutations of a data item that touch master data, the data source or
the operation chain (add_operation appends; remove_operation removes by
index; both fire a DATA change through the accumulator). -/
inductive Mutation where
  | setMaster (data : Option NDArr)
  | setSource (src : Option (List DataItem))
  | insertOperation (op : OperationItem)
  | removeOperation (i : Nat)

/-- Apply one mutation to the entity at the head of the chain. -/
def applyMutation (c : List DataItem) : Mutation → Except String (List DataItem)
  | .setMaster data => (setMasterData c data).map (·.1)
  | .setSource src => (setDataSource c src).map (·.1)
  | .insertOperation op =>
      match c with
      | [] => .error "no data item"
      | d :: rest =>
          let d1 := { d with operations := d.operations ++ [op] }
          .ok ((notifyContentChanged d1 dataChange).1 :: rest)
  | .removeOperation i =>
      match c with
      | [] => .error "no data item"
      | d :: rest =>
          let d1 := { d with operations := d.operations.eraseIdx i }
          .ok ((notifyContentChanged d1 dataChange).1 :: rest)

/-- Apply a sequence of mutations, stopping at the first assertion failure. -/
def applyMutations (c : List DataItem) : List Mutation → Except String (List DataItem)
  | [] => .ok c
  | m :: ms =>
      match applyMutation c m with
      | .error e => .error e
      | .ok c1 => applyMutations c1 ms

/-- The value produced by indexing a numpy array with a (possibly partial)
index tuple: a scalar once fully indexed, otherwise a sub-array. -/
inductive DataValue where
  | intV (v : Int)
  | arrV (shape : List Nat) (vs : List Int)
deriving DecidableEq, Repr

/-- Product of a shape's extents. -/
def suffixProd : List Nat → Nat
  | [] => 1
  | n :: rest => n * suffixProd rest

/-- Flat offset of a partial index tuple in row-major order (`none` when an
index is out of range). -/
def offsetOf : List Nat → List Nat → Option Nat
  | _, [] => some 0
  | [], _ :: _ => none
  | n :: shape', i :: idx' =>
      if i < n then (offsetOf shape' idx').map (fun o => i * suffixProd shape' + o)
      else none

/-- Row-major indexing of an `NDArr` by a partial index tuple. -/
def NDArr.itemAt (a : NDArr) (idx : List Nat) : Option DataValue :=
  match offsetOf a.shape idx with
  | none => none
  | some off =>
      let restShape := a.shape.drop idx.length
      if restShape.isEmpty then (a.payload.get? off).map DataValue.intV
      else some (DataValue.arrV restShape ((a.payload.drop off).take (suffixProd restShape)))

/-- Modelled from the spec: Image.is_shape_and_dtype_1d — data with exactly
one spatial axis (and similarly below for two and three). -/
def isData1dChain (c : List DataItem) : Bool :=
  ((dataShapeAndDtypeChain c).map fun p =>
    (spatialShapeFromShapeAndDtype p.1 p.2).length == 1).getD false

/-- Modelled from the spec: Image.is_shape_and_dtype_2d over a chain. -/
def isData2dChain (c : List DataItem) : Bool :=
  ((dataShapeAndDtypeChain c).map fun p =>
    (spatialShapeFromShapeAndDtype p.1 p.2).length == 2).getD false

/-- Modelled from the spec: Image.is_shape_and_dtype_3d over a chain. -/
def isData3dChain (c : List DataItem) : Bool :=
  ((dataShapeAndDtypeChain c).map fun p =>
    (spatialShapeFromShapeAndDtype p.1 p.2).length == 3).getD false

/-- DataItem.get_data_value: a pure read of the memoized derived array — it
never recomputes or loads.  For 1-d data it returns `cached[pos0]`, for 2-d
`cached[pos0, pos1]`, and (per the code's "fix me 3d" branch) for 3-d data it
also indexes with only the first two coordinates; in every other case, and
whenever no derived array is cached, it returns `none`. -/
def getDataValue (c : List DataItem) (pos : List Nat) : Option DataValue :=
  match c with
  | [] => none
  | d :: _ =>
      if isData1dChain c then
        match d.cachedData with
        | some a => a.itemAt (pos.take 1)
        | none => none
      else if isData2dChain c then
        match d.cachedData with
        | some a => a.itemAt (pos.take 2)
        | none => none
      else if isData3dChain c then
        match d.cachedData with
        | some a => a.itemAt (pos.take 2)
        | none => none
      else none

/-! ## Symbolic.py: the computation graph -/

/-- The `__scalar_type` tags of ConstantDataNode. -/
inductive ScalarType where
  | integral
  | rational
  | real
  | complexT
deriving DecidableEq, Repr

/-- A scalar constant held by a ConstantDataNode (`numpy.array(value)`);
reals are modelled over the integers, `noneV` is `numpy.array(None)`. -/
inductive ScalarVal where
  | intV (i : Int)
  | realV (r : Int)
  | cplxV (re im : Int)
  | noneV
deriving DecidableEq, Repr

/-- The `data_node_type` tags of the serializable node kinds in `_node_map`
(ReferenceDataNode is an intermediate and refuses to read or write). -/
inductive NodeType where
  | constant
  | scalar
  | unary
  | binary
  | function
  | property
  | data
deriving DecidableEq, Repr

/-- A keyword-argument dictionary (`args`), with integer values. -/
abbrev Args := List (String × Int)

/-- The tagged record emitted by DataNode.write: node type, uuid, serialized
inputs, and the variant fields (each `none` when the corresponding dict key
is absent). -/
structure NodeRec where
  nodeType : NodeType
  uuidN : Nat
  inputs : List NodeRec
  scalarType : Option ScalarType
  value : Option ScalarVal
  functionId : Option String
  args : Option Args
  objectSpecifier : Option String
  propertyName : Option String

/-- The computation-graph node tree.  `scalarType` on a constant is an
`Option` because the Python attribute `__scalar_type` is only assigned when
the constructor receives a recognized number (in particular,
`ConstantDataNode()` as created by `DataNode.factory` leaves it unset). -/
inductive DNode where
  | constant (uuidN : Nat) (scalar : ScalarVal) (scalarType : Option ScalarType)
  | scalarOp (uuidN : Nat) (functionId : String) (args : Args) (inputs : List DNode)
  | unaryOp (uuidN : Nat) (functionId : String) (args : Args) (inputs : List DNode)
  | binaryOp (uuidN : Nat) (functionId : String) (args : Args) (inputs : List DNode)
  | functionOp (uuidN : Nat) (functionId : String) (args : Args) (inputs : List DNode)
  | propertyRef (uuidN : Nat) (objectSpecifier : String) (propertyName : String)
  | dataRef (uuidN : Nat) (objectSpecifier : String)

/-- The keys of `_function_map` (scalar/unary/binary operator registry). -/
def functionMapIds : List String :=
  ["abs", "neg", "pos", "add", "sub", "mul", "div", "truediv", "floordiv",
   "mod", "pow", "slice", "amin", "amax", "arange", "median", "average",
   "mean", "std", "var", "log", "log10", "log2"]

/-- The keys of `_function2_map` (library-function registry). -/
def function2MapIds : List String :=
  ["fft", "ifft", "autocorrelate", "crosscorrelate", "sobel", "laplace",
   "gaussian_blur", "median_filter", "uniform_filter", "transpose_flip",
   "crop", "slice_sum", "pick", "project", "resample_image", "histogram",
   "line_profile"]

/-- An empty record with a given type and uuid (the base-class part of
DataNode.write before variant fields are added). -/
def baseRec (nt : NodeType) (u : Nat) (inputs : List NodeRec) : NodeRec :=
  { nodeType := nt, uuidN := u, inputs := inputs, scalarType := none,
    value := none, functionId := none, args := none, objectSpecifier := none,
    propertyName := none }

/-- `int(value)` coercion used by ConstantDataNode.write/read. -/
def ScalarVal.toIntVal : ScalarVal → Except String ScalarVal
  | .intV i => .ok (.intV i)
  | .realV r => .ok (.intV r)
  | _ => .error "TypeError: int() argument"

/-- `float(value)` coercion used by ConstantDataNode.write/read. -/
def ScalarVal.toRealVal : ScalarVal → Except String ScalarVal
  | .intV i => .ok (.realV i)
  | .realV r => .ok (.realV r)
  | _ => .error "TypeError: float() argument"

/-- `complex(float(value.real), float(value.imag))` used by
ConstantDataNode.write. -/
def ScalarVal.toCplxVal : ScalarVal → Except String ScalarVal
  | .intV i => .ok (.cplxV i 0)
  | .realV r => .ok (.cplxV r 0)
  | .cplxV a b => .ok (.cplxV a b)
  | .noneV => .error "TypeError: complex() argument"

mutual

/-- DataNode.write and its subclass overrides.  A ConstantDataNode whose
`__scalar_type` attribute was never assigned raises AttributeError when
written; with scalar type `rational` no branch of the write chain matches
(the stored value is a numpy array, never a `numbers.Rational`), so no value
key is emitted.  `args` is emitted only when nonempty. -/
def DNode.write : DNode → Except String NodeRec
  | .constant u sc st =>
      match st with
      | none => .error "AttributeError: scalar_type"
      | some stv => do
          let value : Option ScalarVal ←
            match stv with
            | .integral => do let v ← sc.toIntVal; pure (some v)
            | .rational => pure none
            | .real => do let v ← sc.toRealVal; pure (some v)
            | .complexT => do let v ← sc.toCplxVal; pure (some v)
          .ok { (baseRec .constant u []) with scalarType := some stv, value := value }
  | .scalarOp u fid args inputs => do
      let recs ← DNode.writeList inputs
      .ok { (baseRec .scalar u recs) with
            functionId := some fid,
            args := if args.isEmpty then none else some args }
  | .unaryOp u fid args inputs => do
      let recs ← DNode.writeList inputs
      .ok { (baseRec .unary u recs) with
            functionId := some fid,
            args := if args.isEmpty then none else some args }
  | .binaryOp u fid args inputs => do
      let recs ← DNode.writeList inputs
      .ok { (baseRec .binary u recs) with
            functionId := some fid,
            args := if args.isEmpty then none else some args }
  | .functionOp u fid args inputs => do
      let recs ← DNode.writeList inputs
      .ok { (baseRec .function u recs) with
            functionId := some fid,
            args := if args.isEmpty then none else some args }
  | .propertyRef u os pn =>
      .ok { (baseRec .property u []) with objectSpecifier := some os, propertyName := some pn }
  | .dataRef u os =>
      .ok { (baseRec .data u []) with objectSpecifier := some os }

/-- Serialize a list of input nodes. -/
def DNode.writeList : List DNode → Except String (List NodeRec)
  | [] => .ok []
  | n :: ns => do
      let r ← DNode.write n
      let rs ← DNode.writeList ns
      .ok (r :: rs)

end

mutual

/-- DataNode.factory followed by the node's read: construct the node named by
`data_node_type` and populate it from the record.  ConstantDataNode.read
restores the scalar from the record's `scalar_type` tag but never assigns the
`__scalar_type` attribute itself, so the reconstructed constant carries
`none` there.  The operator reads assert that `function_id` is present in
the corresponding registry; property/data reads require their
`object_specifier` (and `property`) keys. -/
def DNode.factory (r : NodeRec) : Except String DNode :=
  match r.nodeType with
  | .constant => do
      let sc : ScalarVal ←
        match r.scalarType with
        | some .integral =>
            match r.value with
            | some v => v.toIntVal
            | none => .error "KeyError: value"
        | some .real =>
            match r.value with
            | some v => v.toRealVal
            | none => .error "KeyError: value"
        | some .complexT =>
            match r.value with
            | some v => v.toCplxVal
            | none => .error "KeyError: value"
        | _ => pure ScalarVal.noneV
      .ok (.constant r.uuidN sc none)
  | .scalar => do
      let inputs ← DNode.factoryList r.inputs
      match r.functionId with
      | some fid =>
          if fid ∈ functionMapIds then .ok (.scalarOp r.uuidN fid (r.args.getD []) inputs)
          else .error "assert function_id in _function_map"
      | none => .error "assert function_id in _function_map"
  | .unary => do
      let inputs ← DNode.factoryList r.inputs
      match r.functionId with
      | some fid =>
          if fid ∈ functionMapIds then .ok (.unaryOp r.uuidN fid (r.args.getD []) inputs)
          else .error "assert function_id in _function_map"
      | none => .error "assert function_id in _function_map"
  | .binary => do
      let inputs ← DNode.factoryList r.inputs
      match r.functionId with
      | some fid =>
          if fid ∈ functionMapIds then .ok (.binaryOp r.uuidN fid (r.args.getD []) inputs)
          else .error "assert function_id in _function_map"
      | none => .error "assert function_id in _function_map"
  | .function => do
      let inputs ← DNode.factoryList r.inputs
      match r.functionId with
      | some fid =>
          if fid ∈ function2MapIds then .ok (.functionOp r.uuidN fid (r.args.getD []) inputs)
          else .error "assert function_id in _function2_map"
      | none => .error "assert function_id in _function2_map"
  | .property =>
      match r.objectSpecifier, r.propertyName with
      | some os, some pn => .ok (.propertyRef r.uuidN os pn)
      | _, _ => .error "KeyError: object_specifier / property"
  | .data =>
      match r.objectSpecifier with
      | some os => .ok (.dataRef r.uuidN os)
      | none => .error "KeyError: object_specifier"
termination_by sizeOf r
decreasing_by
  all_goals simp_wf
  all_goals cases r
  all_goals simp
  all_goals omega

/-- Deserialize a list of input records. -/
def DNode.factoryList : List NodeRec → Except String (List DNode)
  | [] => .ok []
  | r :: rs => do
      let n ← DNode.factory r
      let ns ← DNode.factoryList rs
      .ok (n :: ns)
termination_by rs => sizeOf rs
decreasing_by
  all_goals simp_wf
  all_goals omega

end

/-- Symbolic.parse_expression evaluates the expression text with the host
interpreter (`exec` with the registry functions and the variable map in
scope); any exception raised there is caught and no result is returned.  The
interpreter's outcome for the given text is this model's parameter. -/
def parse_expression (execOutcome : Except String DNode) : Option DNode :=
  match execOutcome with
  | .ok n => some n
  | .error _ => none

/-- The state of a Computation: the persisted `node` property, the in-memory
`__data_node`, and whether bound items are currently established. -/
structure Computation where
  node : Option NodeRec
  dataNode : Option DNode
  bound : Bool

/-- Computation.parse_expression: `self.__data_node` is assigned the result
of the module-level parse unconditionally; only on success are the persisted
`node` property rewritten (from write()) and the bindings established. -/
def Computation.parseExpression (c : Computation) (execOutcome : Except String DNode) :
    Except String Computation :=
  match parse_expression execOutcome with
  | none => .ok { c with dataNode := none }
  | some n => do
      let r ← n.write
      .ok { c with dataNode := some n, node := some r, bound := true }

/-! ## Helper lemmas -/

/-- A freshly constructed data item with no data, no source and no
operations (counts at zero, caches dirty, accumulator idle). -/
def blankItem : DataItem :=
  { closed := false, hasMasterData := false, masterData := none,
    masterDataShape := none, masterDataDtype := none, dataSourceAttached := false,
    operations := [], intrinsicSpatialCalibrations := [], cachedData := none,
    cachedDataDirty := true, dataRangeDirty := true, dataRefCount := 0,
    changeCount := 0, changes := ChangeSet.empty, transactionCount := 0,
    datastore := none }

theorem stepChange_preserves (d : DataItem) (cmd : ChangeCmd) :
    ((stepChange d cmd).1).hasMasterData = d.hasMasterData ∧
    ((stepChange d cmd).1).dataSourceAttached = d.dataSourceAttached ∧
    ((stepChange d cmd).1).intrinsicSpatialCalibrations = d.intrinsicSpatialCalibrations ∧
    ((stepChange d cmd).1).operations = d.operations ∧
    ((stepChange d cmd).1).masterData = d.masterData ∧
    ((stepChange d cmd).1).closed = d.closed := by
  cases cmd with
  | beginChanges => exact ⟨rfl, rfl, rfl, rfl, rfl, rfl⟩
  | recordChanges ch => exact ⟨rfl, rfl, rfl, rfl, rfl, rfl⟩
  | endChanges =>
      simp only [stepChange, clearCachedData]
      split
      · split <;> exact ⟨rfl, rfl, rfl, rfl, rfl, rfl⟩
      · exact ⟨rfl, rfl, rfl, rfl, rfl, rfl⟩

theorem runChanges_preserves (cmds : List ChangeCmd) (d : DataItem) :
    ((runChanges d cmds).1).hasMasterData = d.hasMasterData ∧
    ((runChanges d cmds).1).dataSourceAttached = d.dataSourceAttached ∧
    ((runChanges d cmds).1).intrinsicSpatialCalibrations = d.intrinsicSpatialCalibrations ∧
    ((runChanges d cmds).1).operations = d.operations ∧
    ((runChanges d cmds).1).masterData = d.masterData ∧
    ((runChanges d cmds).1).closed = d.closed := by
  induction cmds generalizing d with
  | nil => exact ⟨rfl, rfl, rfl, rfl, rfl, rfl⟩
  | cons c cs ih =>
      have h1 := stepChange_preserves d c
      have h2 := ih (stepChange d c).1
      simp only [runChanges]
      exact ⟨h2.1.trans h1.1, h2.2.1.trans h1.2.1, h2.2.2.1.trans h1.2.2.1,
        h2.2.2.2.1.trans h1.2.2.2.1, h2.2.2.2.2.1.trans h1.2.2.2.2.1,
        h2.2.2.2.2.2.trans h1.2.2.2.2.2⟩

theorem padTruncCalibrations_length (l : List Calibration) (n : Nat) :
    (padTruncCalibrations l n).length = n := by
  unfold padTruncCalibrations
  split
  · simp only [List.length_append, List.length_replicate]
    omega
  · simp only [List.length_take]
    omega

/-- `syncIntrinsicSpatialCalibrations` only replaces the head's calibration
list, leaving the tail and all other head fields alone. -/
theorem sync_cons (d : DataItem) (rest : List DataItem) :
    ∃ cal, syncIntrinsicSpatialCalibrations (d :: rest) =
      { d with intrinsicSpatialCalibrations := cal } :: rest := by
  simp only [syncIntrinsicSpatialCalibrations]
  split
  · exact ⟨padTruncCalibrations d.intrinsicSpatialCalibrations (chainNdim (d :: rest)), rfl⟩
  · exact ⟨d.intrinsicSpatialCalibrations, rfl⟩

/-! ## Claim C3: mutual exclusion of master data and data source -/

/-- The invariant of the head entity: it never has both master data and an
attached data source. -/
def mutualExclusion : List DataItem → Prop
  | [] => True
  | d :: _ => ¬(d.hasMasterData = true ∧ d.dataSourceAttached = true)

theorem applyMutation_mutualExclusion {c c' : List DataItem} {m : Mutation}
    (h : mutualExclusion c) (hm : applyMutation c m = .ok c') : mutualExclusion c' := by
  cases m with
  | setMaster data =>
      cases c with
      | nil => simp [applyMutation, setMasterData, Except.map] at hm
      | cons d rest =>
          simp only [applyMutation, setMasterData] at hm
          by_cases h1 : d.closed ∧ data.isSome
          · simp [h1, Except.map] at hm
          · rw [if_neg h1] at hm
            by_cases h2 : data.isSome ∧ d.dataSourceAttached
            · simp [h2, Except.map] at hm
            · rw [if_neg h2] at hm
              obtain ⟨cal, hcal⟩ := sync_cons
                { d with masterData := data,
                         masterDataShape := data.map NDArr.shape,
                         masterDataDtype := data.map NDArr.dtype,
                         hasMasterData := data.isSome } rest
              rw [hcal] at hm
              simp only [Except.map, Except.ok.injEq] at hm
              subst hm
              rintro ⟨hma, hsa⟩
              rw [(runChanges_preserves _ _).1] at hma
              rw [(runChanges_preserves _ _).2.1] at hsa
              exact h2 ⟨hma, hsa⟩
  | setSource src =>
      cases c with
      | nil => simp [applyMutation, setDataSource, Except.map] at hm
      | cons d rest =>
          simp only [applyMutation, setDataSource] at hm
          by_cases h1 : src.isSome ∧ d.hasMasterData
          · simp [h1, Except.map] at hm
          · rw [if_neg h1] at hm
            cases src with
            | none =>
                dsimp only at hm
                simp only [Except.map, Except.ok.injEq] at hm
                subst hm
                simp [mutualExclusion]
            | some srcChain =>
                dsimp only at hm
                obtain ⟨cal, hcal⟩ := sync_cons { d with dataSourceAttached := true } srcChain
                rw [hcal] at hm
                simp only [Except.map, Except.ok.injEq] at hm
                subst hm
                intro hcontra
                exact h1 ⟨rfl, hcontra.1⟩
  | insertOperation op =>
      cases c with
      | nil => simp only [applyMutation] at hm; exact absurd hm (by simp)
      | cons d rest =>
          simp only [applyMutation, notifyContentChanged, Except.ok.injEq] at hm
          subst hm
          rintro ⟨hma, hsa⟩
          rw [(runChanges_preserves _ _).1] at hma
          rw [(runChanges_preserves _ _).2.1] at hsa
          exact h ⟨hma, hsa⟩
  | removeOperation i =>
      cases c with
      | nil => simp only [applyMutation] at hm; exact absurd hm (by simp)
      | cons d rest =>
          simp only [applyMutation, notifyContentChanged, Except.ok.injEq] at hm
          subst hm
          rintro ⟨hma, hsa⟩
          rw [(runChanges_preserves _ _).1] at hma
          rw [(runChanges_preserves _ _).2.1] at hsa
          exact h ⟨hma, hsa⟩

theorem applyMutations_mutualExclusion {c c' : List DataItem} {ms : List Mutation}
    (h : mutualExclusion c) (hm : applyMutations c ms = .ok c') : mutualExclusion c' := by
  induction ms generalizing c with
  | nil => simp only [applyMutations, Except.ok.injEq] at hm; exact hm ▸ h
  | cons m ms ih =>
      simp only [applyMutations] at hm
      cases hstep : applyMutation c m with
      | error e =>
          rw [hstep] at hm
          exact absurd hm (by simp)
      | ok c1 =>
          rw [hstep] at hm
          exact ih (applyMutation_mutualExclusion h hstep) hm

/-- C3: for every data entity and every sequence of mutations, at most one of
"has master data" and "has data source" holds — the invariant is preserved by
all mutations, and both violating attempts (setting master data with a source
attached, attaching a source with master data present) fail the assert. -/
theorem masterAndSourceMutuallyExclusive :
    (∀ (c c' : List DataItem) (ms : List Mutation),
        mutualExclusion c → applyMutations c ms = .ok c' → mutualExclusion c') ∧
    (∀ (d : DataItem) (rest : List DataItem) (arr : NDArr),
        d.dataSourceAttached = true →
        ∃ msg, setMasterData (d :: rest) (some arr) = .error msg) ∧
    (∀ (d : DataItem) (rest src : List DataItem),
        d.hasMasterData = true →
        ∃ msg, setDataSource (d :: rest) (some src) = .error msg) := by
  refine ⟨fun c c' ms h hm => applyMutations_mutualExclusion h hm, ?_, ?_⟩
  · intro d rest arr hsrc
    by_cases hcl : d.closed
    · exact ⟨"assert not self.closed or data is None", by simp [setMasterData, hcl]⟩
    · exact ⟨"assert data is None or self.__data_source is None",
        by simp [setMasterData, hcl, hsrc]⟩
  · intro d rest src hmd
    exact ⟨"assert data_source is None or not self.has_master_data",
      by simp [setDataSource, hmd]⟩

/-- A data item with a data source attached (the source chain is supplied
separately when needed). -/
def attachedItem : DataItem := { blankItem with dataSourceAttached := true }

/-- A small two-element float array. -/
def arr0 : NDArr := { shape := [2], dtype := .float64, payload := [1, 2] }

theorem masterAndSourceMutuallyExclusive_witness :
    attachedItem.dataSourceAttached = true ∧
    (∃ msg, setMasterData [attachedItem] (some arr0) = .error msg) :=
  ⟨rfl, masterAndSourceMutuallyExclusive.2.1 attachedItem [] arr0 rfl⟩

/-! ## Claim C8: unload conditions and cache clearing -/

/-- C8: the unload of the raw array is skipped when there is no backing
datastore; when it does run (no open transaction, master data marked, a
datastore attached) it drops both the raw array and the memoized derived
cache; and a release on an entity whose ref count was never positive makes no
unload attempt. -/
theorem unloadSkipAndCacheClear :
    (∀ d : DataItem, d.datastore = none → unloadMasterData d = d) ∧
    (∀ d : DataItem, d.transactionCount = 0 → d.hasMasterData = true →
        d.datastore.isSome = true →
        (unloadMasterData d).masterData = none ∧ (unloadMasterData d).cachedData = none) ∧
    (∀ d : DataItem, d.dataRefCount ≤ 0 → (decRefChain [d]).2 = 0) := by
  refine ⟨?_, ?_, ?_⟩
  · intro d h
    unfold unloadMasterData
    rw [if_neg]
    rintro ⟨-, -, hs⟩
    rw [h] at hs
    simp at hs
  · intro d ht hm hs
    unfold unloadMasterData
    rw [if_pos ⟨ht, by simp [hm], by simp [hs]⟩]
    exact ⟨rfl, rfl⟩
  · intro d h
    have hne : ¬(d.dataRefCount - 1 = 0) := by omega
    simp [decRefChain, hne]

/-- An item holding master data backed by a datastore, quiescent. -/
def storedItem : DataItem :=
  { blankItem with
    hasMasterData := true
    masterData := some arr0
    masterDataShape := some [2]
    masterDataDtype := some .float64
    cachedData := some arr0
    datastore := some arr0 }

theorem unloadSkipAndCacheClear_witness :
    (unloadMasterData storedItem).masterData = none ∧
    (unloadMasterData storedItem).cachedData = none :=
  unloadSkipAndCacheClear.2.1 storedItem rfl rfl rfl

/-! ## Claim C10: get_data_value reads only the cached array -/

/-- C10: get_data_value never computes or loads — with no cached derived
array it returns none; with a cached array it returns the element at the
requested position for 1-d and 2-d data.  (The embedding is a pure function
of the chain: the Python body performs no writes.) -/
theorem getDataValueReadsOnlyCache :
    (∀ (d : DataItem) (rest : List DataItem) (pos : List Nat),
        d.cachedData = none → getDataValue (d :: rest) pos = none) ∧
    (∀ (d : DataItem) (rest : List DataItem) (a : NDArr) (pos : List Nat),
        d.cachedData = some a → isData1dChain (d :: rest) = true →
        getDataValue (d :: rest) pos = a.itemAt (pos.take 1)) ∧
    (∀ (d : DataItem) (rest : List DataItem) (a : NDArr) (i n : Nat) (ps : List Nat),
        d.cachedData = some a → isData1dChain (d :: rest) = true →
        a.shape = [n] → i < n →
        getDataValue (d :: rest) (i :: ps) = (a.payload.get? i).map DataValue.intV) ∧
    (∀ (d : DataItem) (rest : List DataItem) (a : NDArr) (i j hh w : Nat) (ps : List Nat),
        d.cachedData = some a → isData2dChain (d :: rest) = true →
        a.shape = [hh, w] → i < hh → j < w →
        getDataValue (d :: rest) (i :: j :: ps) =
          (a.payload.get? (i * w + j)).map DataValue.intV) := by
  have h1 : ∀ (d : DataItem) (rest : List DataItem) (pos : List Nat),
      d.cachedData = none → getDataValue (d :: rest) pos = none := by
    intro d rest pos h
    simp only [getDataValue, h]
    split_ifs <;> rfl
  have h2 : ∀ (d : DataItem) (rest : List DataItem) (a : NDArr) (pos : List Nat),
      d.cachedData = some a → isData1dChain (d :: rest) = true →
      getDataValue (d :: rest) pos = a.itemAt (pos.take 1) := by
    intro d rest a pos h hd1
    simp only [getDataValue, h, hd1]
    rfl
  have h3 : ∀ (d : DataItem) (rest : List DataItem) (a : NDArr) (i n : Nat) (ps : List Nat),
      d.cachedData = some a → isData1dChain (d :: rest) = true →
      a.shape = [n] → i < n →
      getDataValue (d :: rest) (i :: ps) = (a.payload.get? i).map DataValue.intV := by
    intro d rest a i n ps h hd1 hsh hi
    rw [h2 d rest a (i :: ps) h hd1]
    simp only [NDArr.itemAt, List.take, offsetOf, hsh, if_pos hi, suffixProd]
    simp
  have h4 : ∀ (d : DataItem) (rest : List DataItem) (a : NDArr) (i j hh w : Nat)
      (ps : List Nat),
      d.cachedData = some a → isData2dChain (d :: rest) = true →
      a.shape = [hh, w] → i < hh → j < w →
      getDataValue (d :: rest) (i :: j :: ps) =
        (a.payload.get? (i * w + j)).map DataValue.intV := by
    intro d rest a i j hh w ps h hd2 hsh hi hj
    have hd1 : isData1dChain (d :: rest) = false := by
      unfold isData2dChain at hd2
      unfold isData1dChain
      cases hc : dataShapeAndDtypeChain (d :: rest) with
      | none => rw [hc] at hd2; simp at hd2
      | some p =>
          rw [hc] at hd2
          simp at hd2 ⊢
          omega
    simp only [getDataValue, h, hd1, hd2]
    simp only [Bool.false_eq_true, if_false, if_true]
    simp only [NDArr.itemAt, List.take, offsetOf, hsh, if_pos hi, if_pos hj, suffixProd]
    simp [Nat.mul_one]
  exact ⟨h1, h2, h3, h4⟩

/-- A 1-d item with a cached derived array (shape from its master data). -/
def cached1dItem : DataItem :=
  { blankItem with
    hasMasterData := true
    masterData := some { shape := [3], dtype := .float64, payload := [5, 6, 7] }
    masterDataShape := some [3]
    masterDataDtype := some .float64
    cachedData := some { shape := [3], dtype := .float64, payload := [5, 6, 7] }
    cachedDataDirty := false }

theorem getDataValueReadsOnlyCache_witness :
    getDataValue [cached1dItem] [1] = some (DataValue.intV 6) := by
  have h := getDataValueReadsOnlyCache.2.2.1 cached1dItem []
    { shape := [3], dtype := .float64, payload := [5, 6, 7] } 1 3 [] rfl (by decide) rfl
    (by decide)
  rw [h]
  rfl

/-! ## Claim C6: expression-parse failures -/

/-- A parsed constant node held by a computation before a failing re-parse. -/
def nodeX : DNode := .constant 1 (.intV 2) (some .integral)

/-- A computation that already established a data node. -/
def compWithNode : Computation := { node := none, dataNode := some nodeX, bound := false }

/-- C6 counterexample: a failing parse does not leave the computation's prior
in-memory node untouched — parse_expression assigns `self.__data_node = None`
before testing the result, so the previously established node is discarded. -/
theorem parseFailureClobbersPriorNode :
    ¬((Computation.parseExpression compWithNode (.error "SyntaxError")).map
        Computation.dataNode = .ok compWithNode.dataNode) := by
  simp [Computation.parseExpression, parse_expression, compWithNode, Except.map]

/-- C6 as amended: a failing parse returns no result instead of propagating
the error, and leaves the persisted `node` property (and everything except
the in-memory data node, which is cleared) untouched. -/
theorem parseFailureLeavesPersistedNode (c : Computation) (msg : String) :
    parse_expression (Except.error msg) = (none : Option DNode) ∧
    Computation.parseExpression c (.error msg) = .ok { c with dataNode := none } :=
  ⟨rfl, rfl⟩

/-! ## Claim C2: change batching -/

theorem runChanges_append (xs ys : List ChangeCmd) (d : DataItem) :
    runChanges d (xs ++ ys) =
      ((runChanges (runChanges d xs).1 ys).1,
        (runChanges d xs).2 ++ (runChanges (runChanges d xs).1 ys).2) := by
  induction xs generalizing d with
  | nil => simp [runChanges]
  | cons x xs ih =>
      simp only [List.cons_append, runChanges, List.append_eq]
      rw [ih]
      simp [List.append_assoc]

/-- While the transaction depth stays at least 1, running commands emits no
events; the depth follows the net delta and the pending set accumulates the
recorded kinds. -/
theorem runChanges_inner (cmds : List ChangeCmd) (d : DataItem)
    (hd : 1 ≤ d.changeCount) (hok : innerOk d.changeCount cmds = true) :
    runChanges d cmds =
      ({ d with changeCount := depthAfter d.changeCount cmds,
                changes := recordedFrom d.changes cmds }, []) := by
  induction cmds generalizing d with
  | nil => exact rfl
  | cons c cs ih =>
      simp only [innerOk, Bool.and_eq_true, decide_eq_true_eq] at hok
      obtain ⟨h1, h2⟩ := hok
      cases c with
      | beginChanges =>
          have := ih { d with changeCount := d.changeCount + 1 }
            (by simpa [cmdDelta] using h1) (by simpa [cmdDelta] using h2)
          simp only [runChanges, stepChange, this]
          exact rfl
      | recordChanges ch =>
          have := ih { d with changes := d.changes.union ch }
            (by simpa [cmdDelta] using h1) (by simpa [cmdDelta] using h2)
          simp only [runChanges, stepChange, this]
          simp only [depthAfter, cmdDelta, recordedFrom, add_zero]
          exact rfl
      | endChanges =>
          have hne : ¬(d.changeCount - 1 = 0) := by
            simp only [cmdDelta] at h1
            omega
          have := ih { d with changeCount := d.changeCount - 1 }
            (by show (1:Int) ≤ d.changeCount - 1; simp only [cmdDelta] at h1; omega)
            (by simpa [cmdDelta] using h2)
          simp only [runChanges, stepChange, if_neg hne, this]
          simp only [depthAfter, cmdDelta, recordedFrom, Int.sub_eq_add_neg]
          exact rfl

/-- Notification events among change events. -/
def isNotification : ChangeEvent → Bool
  | .contentChanged _ => true
  | .cacheCleared => false

/-- C2: a nested transaction span (an outer begin/end around inner commands
that never close the outer transaction) delivers exactly one notification
when the outermost end returns the depth to 0, the notification carries the
union of all change kinds recorded in the span, and when that union contains
DATA or SOURCE the derived cache is invalidated (the cacheCleared event)
before the notification reaches any observer. -/
theorem batchedNotificationSingleDelivery (d : DataItem) (inner : List ChangeCmd)
    (h0 : d.changeCount = 0) (hch : d.changes = ChangeSet.empty)
    (hok : innerOk 1 inner = true) (hnet : depthAfter 1 inner = 1) :
    (runChanges d (ChangeCmd.beginChanges :: (inner ++ [ChangeCmd.endChanges]))).2 =
      (if (recorded inner).hasData || (recorded inner).hasSource then
        [ChangeEvent.cacheCleared, ChangeEvent.contentChanged (recorded inner)]
      else [ChangeEvent.contentChanged (recorded inner)]) ∧
    ((runChanges d (ChangeCmd.beginChanges :: (inner ++ [ChangeCmd.endChanges]))).2.countP
        isNotification = 1) ∧
    (((recorded inner).hasData || (recorded inner).hasSource) = true →
      ((runChanges d (ChangeCmd.beginChanges :: (inner ++ [ChangeCmd.endChanges]))).1.cachedDataDirty
        = true)) := by
  have hstep1 : runChanges d (ChangeCmd.beginChanges :: (inner ++ [ChangeCmd.endChanges])) =
      ((runChanges { d with changeCount := d.changeCount + 1 } (inner ++ [ChangeCmd.endChanges])).1,
        (runChanges { d with changeCount := d.changeCount + 1 } (inner ++ [ChangeCmd.endChanges])).2) := by
    simp only [runChanges, stepChange]
    exact rfl
  have hcount1 : ({ d with changeCount := d.changeCount + 1 } : DataItem).changeCount = 1 := by
    simp [h0]
  have hinner := runChanges_inner inner { d with changeCount := d.changeCount + 1 }
    (by rw [hcount1]) (by rw [hcount1]; exact hok)
  have hex : ∃ d2 : DataItem, d2.changeCount = 1 ∧ d2.changes = recorded inner ∧
      runChanges { d with changeCount := d.changeCount + 1 } inner = (d2, []) := by
    refine ⟨_, ?_, ?_, hinner⟩
    · show depthAfter (d.changeCount + 1) inner = 1
      rw [h0]
      norm_num
      exact hnet
    · show recordedFrom d.changes inner = recorded inner
      rw [hch]
      rfl
  obtain ⟨d2, hd2count, hd2changes, hinner2⟩ := hex
  have happ := runChanges_append inner [ChangeCmd.endChanges]
    { d with changeCount := d.changeCount + 1 }
  rw [hinner2] at happ
  have hlast : runChanges d2 [ChangeCmd.endChanges] =
      ((stepChange d2 ChangeCmd.endChanges).1, (stepChange d2 ChangeCmd.endChanges).2) := by
    simp [runChanges]
  have hstep : stepChange d2 ChangeCmd.endChanges =
      (if (recorded inner).hasData || (recorded inner).hasSource then
        (clearCachedData { d2 with changeCount := 0, changes := ChangeSet.empty },
          [ChangeEvent.cacheCleared, ChangeEvent.contentChanged (recorded inner)])
      else ({ d2 with changeCount := 0, changes := ChangeSet.empty },
          [ChangeEvent.contentChanged (recorded inner)])) := by
    simp only [stepChange, hd2count, hd2changes]
    norm_num
  rw [hstep1, happ, hlast, hstep]
  by_cases hds : ((recorded inner).hasData || (recorded inner).hasSource) = true
  · rw [if_pos hds]
    refine ⟨by rw [if_pos (by simpa [Bool.or_eq_true] using hds)]; rfl,
      by simp [isNotification, List.countP, List.countP.go], ?_⟩
    intro
    simp [clearCachedData]
  · rw [if_neg hds]
    refine ⟨by rw [if_neg (by simpa [Bool.or_eq_true] using hds)]; rfl,
      by simp [isNotification, List.countP, List.countP.go], ?_⟩
    intro hcontra
    exact absurd hcontra hds

/-- The inner commands of the witness span: record DATA, then a nested
begin/record-SOURCE/end. -/
def witnessInner : List ChangeCmd :=
  [ChangeCmd.recordChanges dataChange, ChangeCmd.beginChanges,
   ChangeCmd.recordChanges sourceChange, ChangeCmd.endChanges]

theorem batchedNotificationSingleDelivery_witness :
    blankItem.changeCount = 0 ∧
    (runChanges blankItem (ChangeCmd.beginChanges :: (witnessInner ++ [ChangeCmd.endChanges]))).2 =
      (if (recorded witnessInner).hasData || (recorded witnessInner).hasSource then
        [ChangeEvent.cacheCleared, ChangeEvent.contentChanged (recorded witnessInner)]
      else [ChangeEvent.contentChanged (recorded witnessInner)]) :=
  ⟨rfl, (batchedNotificationSingleDelivery blankItem witnessInner rfl rfl (by decide)
    (by decide)).1⟩

/-! ## Claim C4: ref-count propagation -/

/-- N successive calls to increment_data_ref_count on the head entity. -/
def incRepeat : Nat → List DataItem → List DataItem
  | 0, c => c
  | n + 1, c => incRepeat n (incRefChain c)

/-- N successive calls to decrement_data_ref_count on the head entity,
accumulating the number of unload attempts. -/
def decRepeat : Nat → List DataItem → List DataItem × Nat
  | 0, c => (c, 0)
  | n + 1, c =>
      ((decRepeat n (decRefChain c).1).1,
        (decRefChain c).2 + (decRepeat n (decRefChain c).1).2)

theorem loadMasterData_fields (d : DataItem) :
    (loadMasterData d).dataRefCount = d.dataRefCount ∧
    (loadMasterData d).dataSourceAttached = d.dataSourceAttached := by
  unfold loadMasterData
  split <;> exact ⟨rfl, rfl⟩

theorem unloadMasterData_fields (d : DataItem) :
    (unloadMasterData d).dataRefCount = d.dataRefCount ∧
    (unloadMasterData d).dataSourceAttached = d.dataSourceAttached := by
  unfold unloadMasterData
  split <;> exact ⟨rfl, rfl⟩

/-- An increment on an entity whose count is already positive (or negative)
only bumps the head count. -/
theorem incRefChain_pos (x : DataItem) (t : List DataItem) (hx : ¬x.dataRefCount = 0) :
    incRefChain (x :: t) = { x with dataRefCount := x.dataRefCount + 1 } :: t := by
  simp [incRefChain, hx]

/-- A decrement that leaves the head count nonzero only updates the head. -/
theorem decRefChain_pos (x : DataItem) (t : List DataItem) (hx : ¬x.dataRefCount - 1 = 0) :
    decRefChain (x :: t) = ({ x with dataRefCount := x.dataRefCount - 1 } :: t, 0) := by
  simp [decRefChain, hx]

theorem incRepeat_pos (k : Nat) (x : DataItem) (t : List DataItem)
    (hx : 1 ≤ x.dataRefCount) :
    incRepeat k (x :: t) = { x with dataRefCount := x.dataRefCount + k } :: t := by
  induction k generalizing x with
  | zero =>
      show x :: t = { x with dataRefCount := x.dataRefCount + (0 : Nat) } :: t
      rw [show x.dataRefCount + ((0 : Nat) : Int) = x.dataRefCount by omega]
  | succ n ih =>
      show incRepeat n (incRefChain (x :: t)) = _
      rw [incRefChain_pos x t (by omega)]
      rw [ih { x with dataRefCount := x.dataRefCount + 1 } (by show 1 ≤ x.dataRefCount + 1; omega)]
      show ({ x with dataRefCount := x.dataRefCount + 1 + (n : Int) } : DataItem) :: t = _
      rw [show x.dataRefCount + 1 + (n : Int) = x.dataRefCount + ((n + 1 : Nat) : Int) by push_cast; omega]

theorem decRepeat_pos (k : Nat) (x : DataItem) (t : List DataItem)
    (hx : (k : Int) + 1 ≤ x.dataRefCount) :
    decRepeat k (x :: t) = ({ x with dataRefCount := x.dataRefCount - k } :: t, 0) := by
  induction k generalizing x with
  | zero =>
      show (x :: t, 0) = ({ x with dataRefCount := x.dataRefCount - (0 : Nat) } :: t, 0)
      rw [show x.dataRefCount - ((0 : Nat) : Int) = x.dataRefCount by omega]
  | succ n ih =>
      have hne : ¬x.dataRefCount - 1 = 0 := by push_cast at hx; omega
      show ((decRepeat n (decRefChain (x :: t)).1).1,
        (decRefChain (x :: t)).2 + (decRepeat n (decRefChain (x :: t)).1).2) = _
      rw [decRefChain_pos x t hne]
      rw [show ((({ x with dataRefCount := x.dataRefCount - 1 } : DataItem) :: t, 0) :
        List DataItem × Nat).1 = { x with dataRefCount := x.dataRefCount - 1 } :: t from rfl]
      rw [ih { x with dataRefCount := x.dataRefCount - 1 }
        (by show (n : Int) + 1 ≤ x.dataRefCount - 1; push_cast at hx; omega)]
      show ({ x with dataRefCount := x.dataRefCount - 1 - (n : Int) } :: t, 0 + 0) = _
      rw [show x.dataRefCount - 1 - (n : Int) = x.dataRefCount - ((n + 1 : Nat) : Int) by push_cast; omega]

/-- A derived entity (data source attached), quiescent. -/
def derivedItem : DataItem := { blankItem with dataSourceAttached := true }

/-- A source entity holding master data, quiescent. -/
def sourceItem : DataItem :=
  { blankItem with
    hasMasterData := true
    masterData := some arr0
    masterDataShape := some [2]
    masterDataDtype := some .float64 }

/-- C4 counterexample: two acquires on a derived entity increment the
source's ref count only once (on the 0 → 1 transition), not once per call —
after two calls the counts are [2, 1], not [2, 2]. -/
theorem perCallSourceIncrementFails :
    ((incRepeat 2 [derivedItem, sourceItem]).map DataItem.dataRefCount = [2, 1]) ∧
    ¬((incRepeat 2 [derivedItem, sourceItem]).map DataItem.dataRefCount = [2, 2]) := by
  constructor <;> decide

/-- C4 as amended: acquire() propagates to the data source only on the
0 → 1 transition (incrementing it by exactly one there); starting from
ref counts 0, N acquires followed by N releases returns both the entity's
and the source's ref counts to 0, with exactly one unload attempt in total,
occurring at the final release (none in the first N-1 releases). -/
theorem refCountPropagationAmended (d s : DataItem) (N : Nat) (hN : 1 ≤ N)
    (hd0 : d.dataRefCount = 0) (hs0 : s.dataRefCount = 0)
    (hda : d.dataSourceAttached = true) (hsa : s.dataSourceAttached = false) :
    (incRepeat N [d, s]).map DataItem.dataRefCount = [(N : Int), 1] ∧
    ((decRepeat N (incRepeat N [d, s])).1).map DataItem.dataRefCount = [0, 0] ∧
    (decRepeat N (incRepeat N [d, s])).2 = 1 ∧
    (decRepeat (N - 1) (incRepeat N [d, s])).2 = 0 := by
  have decRepeat_add : ∀ (a b : Nat) (c : List DataItem),
      decRepeat (a + b) c =
        ((decRepeat b (decRepeat a c).1).1,
          (decRepeat a c).2 + (decRepeat b (decRepeat a c).1).2) := by
    intro a
    induction a with
    | zero => intro b c; simp [decRepeat]
    | succ n ih =>
        intro b c
        rw [show n + 1 + b = (n + b) + 1 by omega]
        show ((decRepeat (n + b) (decRefChain c).1).1, _) = _
        rw [ih b (decRefChain c).1]
        simp only [decRepeat, Prod.mk.injEq, true_and]
        omega
  have hfirst : incRefChain [d, s] =
      [{ d with dataRefCount := d.dataRefCount + 1 },
        loadMasterData { s with dataRefCount := s.dataRefCount + 1 }] := by
    show (if d.dataRefCount = 0 then
        if d.dataSourceAttached then _ :: incRefChain [s] else _
      else _) = _
    rw [if_pos hd0, if_pos hda]
    show (_ :: (if s.dataRefCount = 0 then
        if s.dataSourceAttached then _ else [loadMasterData _]
      else _) : List DataItem) = _
    rw [if_pos hs0, hsa]
    simp only [Bool.false_eq_true, if_false]
  set L := loadMasterData { s with dataRefCount := s.dataRefCount + 1 } with hLdef
  have hL1 : L.dataRefCount = 1 := by
    rw [hLdef, (loadMasterData_fields _).1]
    show s.dataRefCount + 1 = 1
    omega
  have hLa : L.dataSourceAttached = false := by
    rw [hLdef, (loadMasterData_fields _).2]
    exact hsa
  obtain ⟨m, rfl⟩ : ∃ m, N = m + 1 := ⟨N - 1, by omega⟩
  rw [show m + 1 - 1 = m by omega]
  have hinc : incRepeat (m + 1) [d, s] =
      [{ d with dataRefCount := d.dataRefCount + 1 + (m : Int) }, L] := by
    show incRepeat m (incRefChain [d, s]) = _
    rw [hfirst]
    rw [incRepeat_pos m _ _ (by show 1 ≤ d.dataRefCount + 1; omega)]
  have hdecpre : decRepeat m (incRepeat (m + 1) [d, s]) =
      ({ d with dataRefCount := d.dataRefCount + 1 + (m : Int) - (m : Int) } :: [L], 0) := by
    rw [hinc]
    have := decRepeat_pos m { d with dataRefCount := d.dataRefCount + 1 + (m : Int) } [L]
      (by show (m : Int) + 1 ≤ d.dataRefCount + 1 + (m : Int); omega)
    rw [this]
  have hmidc : ({ d with dataRefCount := d.dataRefCount + 1 + (m : Int) - (m : Int) }
      : DataItem).dataRefCount = 1 := by
    show d.dataRefCount + 1 + (m : Int) - (m : Int) = 1
    omega
  have hdecL : decRefChain [L] =
      ([unloadMasterData { L with dataRefCount := L.dataRefCount - 1 }], 1) := by
    show (if L.dataRefCount - 1 = 0 then
        if L.dataSourceAttached then _ else ([unloadMasterData _], 1)
      else _) = _
    rw [if_pos (by rw [hL1]; omega), hLa]
    simp only [Bool.false_eq_true, if_false]
  have hfinal : decRefChain
      ({ d with dataRefCount := d.dataRefCount + 1 + (m : Int) - (m : Int) } :: [L]) =
      ([{ d with dataRefCount := d.dataRefCount + 1 + (m : Int) - (m : Int) - 1 },
        unloadMasterData { L with dataRefCount := L.dataRefCount - 1 }], 1) := by
    show (if ({ d with dataRefCount := d.dataRefCount + 1 + (m : Int) - (m : Int) }
        : DataItem).dataRefCount - 1 = 0 then
        if ({ d with dataRefCount := d.dataRefCount + 1 + (m : Int) - (m : Int) }
          : DataItem).dataSourceAttached then _ else _
      else _) = _
    rw [if_pos (by rw [hmidc]; omega), if_pos (show d.dataSourceAttached = true from hda)]
    rw [hdecL]
  have hone : decRepeat 1
      ({ d with dataRefCount := d.dataRefCount + 1 + (m : Int) - (m : Int) } :: [L]) =
      ([{ d with dataRefCount := d.dataRefCount + 1 + (m : Int) - (m : Int) - 1 },
        unloadMasterData { L with dataRefCount := L.dataRefCount - 1 }], 1) := by
    show ((decRepeat 0 (decRefChain _).1).1,
      (decRefChain _).2 + (decRepeat 0 (decRefChain _).1).2) = _
    rw [hfinal]
    rfl
  have hsplit := decRepeat_add m 1 (incRepeat (m + 1) [d, s])
  rw [hdecpre] at hsplit
  refine ⟨?_, ?_, ?_, ?_⟩
  · rw [hinc]
    simp only [List.map]
    rw [hL1]
    rw [show d.dataRefCount + 1 + (m : Int) = ((m + 1 : Nat) : Int) by push_cast; omega]
  · rw [hsplit, hone]
    simp only [List.map]
    rw [(unloadMasterData_fields _).1]
    rw [show d.dataRefCount + 1 + (m : Int) - (m : Int) - 1 = 0 by omega]
    rw [show ({ L with dataRefCount := L.dataRefCount - 1 } : DataItem).dataRefCount
      = L.dataRefCount - 1 from rfl]
    rw [hL1]
    norm_num
  · rw [hsplit, hone]
    rfl
  · rw [hdecpre]

theorem refCountPropagationAmended_witness :
    derivedItem.dataRefCount = 0 ∧
    ((decRepeat 2 (incRepeat 2 [derivedItem, sourceItem])).1).map DataItem.dataRefCount
      = [0, 0] :=
  ⟨rfl, (refCountPropagationAmended derivedItem sourceItem 2 (by decide) rfl rfl rfl
    rfl).2.1⟩

/-! ## Claim C1: operation order in __get_data -/

/-- The spec's reading of the operation chain in get_data (§4.1): definition
order, enabled operations only (a disabled operation is the identity, per
`OperationItem.process_data`), each producing a new array.  Written from the
spec's words, for comparison with `applyOpsReversed`, the loop actually found
in DataItem.__get_data. -/
def applyOpsInDefinitionOrder (ops : List OperationItem) (a : NDArr) : NDArr :=
  ops.foldl (fun x op => op.process_data x) a

/-- An enabled operation appending a length-1 axis and incrementing each
element. -/
def opAppendAxis : OperationItem :=
  { enabled := true
    transform := fun a => { shape := a.shape ++ [1], dtype := a.dtype,
                            payload := a.payload.map (fun x => x + 1) }
    shapeTransfer := fun s t => (s ++ [1], t) }

/-- An enabled operation collapsing the shape to its rank and doubling each
element. -/
def opCollapse : OperationItem :=
  { enabled := true
    transform := fun a => { shape := [a.shape.length], dtype := a.dtype,
                            payload := a.payload.map (fun x => x * 2) }
    shapeTransfer := fun s t => ([s.length], t) }

/-- A 1-d master array of two elements. -/
def arrC1 : NDArr := { shape := [2], dtype := .int32, payload := [1, 2] }

/-- A data entity holding `arrC1` as master data, with two enabled
non-commuting operations in definition order [opAppendAxis, opCollapse]. -/
def itemC1 : DataItem :=
  { blankItem with hasMasterData := true, masterData := some arrC1,
                   masterDataShape := some arrC1.shape,
                   masterDataDtype := some arrC1.dtype,
                   operations := [opAppendAxis, opCollapse] }

/-- C1: DataItem.__get_data applies the operation chain in REVERSED
definition order (`for operation in reversed(operations)`), contradicting the
claimed definition-order application.  On a concrete entity with two enabled
non-commuting operations, get_data computes the reversed-order result, which
differs from the definition-order result, and whose shape even disagrees with
the entity's own data_shape_and_dtype (which does thread the shape through
the operations in definition order). -/
theorem getDataAppliesOperationsReversed :
    (getDataChain [itemC1]).2.1 =
      some { shape := [1, 1], dtype := Dtype.int32, payload := [3, 5] } ∧
    applyOpsInDefinitionOrder itemC1.operations arrC1 =
      { shape := [2], dtype := Dtype.int32, payload := [4, 6] } ∧
    (getDataChain [itemC1]).2.1 ≠
      some (applyOpsInDefinitionOrder itemC1.operations arrC1) ∧
    (getDataChain [itemC1]).2.1.map NDArr.shape ≠
      (dataShapeAndDtypeChain [itemC1]).map Prod.fst := by
  have h2 : (getDataChain [itemC1]).2.1 =
      some { shape := [1, 1], dtype := Dtype.int32, payload := [3, 5] } := by
    simp only [getDataChain]
    rfl
  refine ⟨h2, rfl, ?_, ?_⟩
  · rw [h2]; decide
  · rw [h2]; decide

/-! ## Claim C7: get_data idempotence and memoization -/

/-- A chain is "none-settled" when a get_data traversal finds an empty, clean
cache at every step and no in-memory or reloadable master data, so it
reproduces `none` without touching any state: the head's cache is empty and
clean, a master-flagged head is unloaded with no datastore (load and unload
are then no-ops), and the tail is none-settled whenever a source link is
attached. -/
def NoneSettled : List DataItem → Prop
  | [] => True
  | d :: rest =>
      d.cachedDataDirty = false ∧ d.cachedData = none ∧
      (d.hasMasterData = true → d.masterData = none ∧ d.datastore = none) ∧
      (d.dataSourceAttached = true → NoneSettled rest)

theorem loadMasterData_noop (d : DataItem)
    (h : d.hasMasterData = true → d.datastore = none) :
    loadMasterData d = d := by
  unfold loadMasterData
  rw [if_neg]
  rintro ⟨hm, hds, _⟩
  rw [h hm] at hds
  simp at hds

theorem unloadMasterData_noop (d : DataItem)
    (h : d.hasMasterData = true → d.datastore = none) :
    unloadMasterData d = d := by
  unfold unloadMasterData
  rw [if_neg]
  rintro ⟨_, hm, hds⟩
  rw [h hm] at hds
  simp at hds

theorem count_bump_cancel (d : DataItem) :
    ({ d with dataRefCount := d.dataRefCount + 1 - 1 } : DataItem) = d := by
  have h : d.dataRefCount + 1 - 1 = d.dataRefCount := by ring
  rw [h]

theorem noneSettled_incRefChain : ∀ (c : List DataItem),
    NoneSettled c → NoneSettled (incRefChain c)
  | [], _ => trivial
  | d :: rest, h => by
      obtain ⟨hdirty, hcache, hmast, htail⟩ := h
      simp only [incRefChain]
      by_cases h0 : d.dataRefCount = 0
      · by_cases hs : d.dataSourceAttached = true
        · rw [if_pos h0, if_pos hs]
          exact ⟨hdirty, hcache, hmast,
            fun _ => noneSettled_incRefChain rest (htail hs)⟩
        · rw [if_pos h0, if_neg hs]
          rw [loadMasterData_noop { d with dataRefCount := d.dataRefCount + 1 }
            (fun hm => (hmast hm).2)]
          exact ⟨hdirty, hcache, hmast, fun ha => absurd ha hs⟩
      · rw [if_neg h0]
        exact ⟨hdirty, hcache, hmast, htail⟩

theorem decRefChain_incRefChain : ∀ (c : List DataItem),
    NoneSettled c → (decRefChain (incRefChain c)).1 = c
  | [], _ => rfl
  | d :: rest, h => by
      obtain ⟨hdirty, hcache, hmast, htail⟩ := h
      simp only [incRefChain]
      by_cases h0 : d.dataRefCount = 0
      · by_cases hs : d.dataSourceAttached = true
        · rw [if_pos h0, if_pos hs]
          simp only [decRefChain]
          rw [if_pos (show ({ d with dataRefCount := d.dataRefCount + 1 } :
                DataItem).dataRefCount - 1 = 0 by simp only []; omega),
              if_pos hs]
          rcases hdr : decRefChain (incRefChain rest) with ⟨r1, k⟩
          have hr1 : r1 = rest := by
            have := decRefChain_incRefChain rest (htail hs)
            rw [hdr] at this
            exact this
          simp only [hdr, hr1]
          show ({ d with dataRefCount := d.dataRefCount + 1 - 1 } :
            DataItem) :: rest = d :: rest
          rw [count_bump_cancel]
        · rw [if_pos h0, if_neg hs]
          rw [loadMasterData_noop { d with dataRefCount := d.dataRefCount + 1 }
            (fun hm => (hmast hm).2)]
          simp only [decRefChain]
          rw [if_pos (show ({ d with dataRefCount := d.dataRefCount + 1 } :
                DataItem).dataRefCount - 1 = 0 by simp only []; omega),
              if_neg hs]
          show unloadMasterData ({ d with dataRefCount := d.dataRefCount + 1 - 1 }) :: rest
            = d :: rest
          rw [count_bump_cancel, unloadMasterData_noop _ (fun hm => (hmast hm).2)]
      · rw [if_neg h0]
        simp only [decRefChain]
        rw [if_neg (show ¬({ d with dataRefCount := d.dataRefCount + 1 } :
              DataItem).dataRefCount - 1 = 0 by simp only []; omega)]
        show ({ d with dataRefCount := d.dataRefCount + 1 - 1 } : DataItem) :: rest
          = d :: rest
        rw [count_bump_cancel]

theorem noneSettled_decRefChain : ∀ (c : List DataItem),
    NoneSettled c → NoneSettled ((decRefChain c).1)
  | [], _ => trivial
  | d :: rest, h => by
      obtain ⟨hdirty, hcache, hmast, htail⟩ := h
      simp only [decRefChain]
      by_cases h0 : d.dataRefCount - 1 = 0
      · by_cases hs : d.dataSourceAttached = true
        · rw [if_pos h0, if_pos hs]
          rcases hdr : decRefChain rest with ⟨r1, k⟩
          have hr1 : NoneSettled r1 := by
            have := noneSettled_decRefChain rest (htail hs)
            rw [hdr] at this
            exact this
          simp only [hdr]
          exact ⟨hdirty, hcache, hmast, fun _ => hr1⟩
        · rw [if_pos h0, if_neg hs]
          rw [unloadMasterData_noop { d with dataRefCount := d.dataRefCount - 1 }
            (fun hm => (hmast hm).2)]
          exact ⟨hdirty, hcache, hmast, fun ha => absurd ha hs⟩
      · rw [if_neg h0]
        exact ⟨hdirty, hcache, hmast, htail⟩

/-- On a none-settled chain, get_data is a complete no-op: it returns no
data, re-invokes no operation, and leaves every entity unchanged (the inner
increments and decrements cancel and the load/unload hooks do nothing). -/
theorem noneSettled_getDataChain : ∀ (n : Nat) (c : List DataItem), c.length ≤ n →
    NoneSettled c → getDataChain c = (c, none, 0)
  | _, [], _, _ => by simp [getDataChain]
  | 0, _ :: _, hlen, _ => by simp at hlen
  | n + 1, d :: rest, hlen, hns => by
      obtain ⟨hdirty, hcache, hmast, htail⟩ := hns
      have hlen1 : rest.length ≤ n := by
        simp only [List.length_cons] at hlen
        omega
      simp only [getDataChain]
      rw [if_pos (Or.inr hcache)]
      have hdata0 : (if d.hasMasterData = true then d.masterData else none) =
          (none : Option NDArr) := by
        by_cases hm : d.hasMasterData = true
        · rw [if_pos hm]
          exact (hmast hm).1
        · rw [if_neg hm]
      rw [hdata0]
      have heta : ({ d with cachedData := none, cachedDataDirty := false } :
          DataItem) = d := by
        rw [← hcache, ← hdirty]
      dsimp only
      by_cases hs : d.dataSourceAttached = true
      · rw [if_pos hs]
        have hrec := noneSettled_getDataChain n (incRefChain rest)
          (by rw [length_incRefChain]; exact hlen1)
          (noneSettled_incRefChain rest (htail hs))
        rw [hrec]
        dsimp only
        rw [decRefChain_incRefChain rest (htail hs), heta]
      · rw [if_neg hs]
        dsimp only
        rw [heta]

/-- The per-item invariant used by the idempotence theorem: master data and
an attached source are mutually exclusive (the C3 invariant the asserts
enforce), and a master-flagged item is either loaded in memory or has no
datastore (it is not in a half-unloaded state). -/
def invH23 (c : List DataItem) : Prop :=
  ∀ x ∈ c, (x.hasMasterData = true → x.dataSourceAttached = false) ∧
           (x.hasMasterData = true → x.masterData.isSome = true ∨ x.datastore = none)

theorem invH23_load (x : DataItem)
    (h : (x.hasMasterData = true → x.dataSourceAttached = false) ∧
         (x.hasMasterData = true → x.masterData.isSome = true ∨ x.datastore = none)) :
    (((loadMasterData x).hasMasterData = true →
        (loadMasterData x).dataSourceAttached = false) ∧
     ((loadMasterData x).hasMasterData = true →
        (loadMasterData x).masterData.isSome = true ∨ (loadMasterData x).datastore = none)) := by
  unfold loadMasterData
  split
  · next hc =>
      refine ⟨h.1, fun _ => Or.inl ?_⟩
      exact hc.2.1
  · exact h

theorem invH23_incRefChain : ∀ (c : List DataItem), invH23 c → invH23 (incRefChain c)
  | [], h => h
  | d :: rest, h => by
      have hd := h d (List.mem_cons_self d rest)
      have hrest : invH23 rest := fun x hx => h x (List.mem_cons_of_mem d hx)
      simp only [incRefChain]
      by_cases h0 : d.dataRefCount = 0
      · by_cases hs : d.dataSourceAttached = true
        · rw [if_pos h0, if_pos hs]
          intro y hy
          rcases List.mem_cons.mp hy with hy1 | hy2
          · subst hy1
            exact hd
          · exact invH23_incRefChain rest hrest y hy2
        · rw [if_pos h0, if_neg hs]
          intro y hy
          rcases List.mem_cons.mp hy with hy1 | hy2
          · subst hy1
            exact invH23_load _ hd
          · exact hrest y hy2
      · rw [if_neg h0]
        intro y hy
        rcases List.mem_cons.mp hy with hy1 | hy2
        · subst hy1
          exact hd
        · exact hrest y hy2

/-- Post-state characterization of one get_data pass: a `none` result leaves
a none-settled chain, and a `some` result leaves the computed array memoized
and clean at the head. -/
def PostOk (c1 : List DataItem) (r : Option NDArr) : Prop :=
  (r = none → NoneSettled c1) ∧
  (∀ a, r = some a → ∃ h t, c1 = h :: t ∧ h.cachedData = some a ∧ h.cachedDataDirty = false)

theorem getDataChain_postOk : ∀ (n : Nat) (c : List DataItem), c.length ≤ n →
    invH23 c → PostOk (getDataChain c).1 (getDataChain c).2.1
  | _, [], _, _ => by
      have h0 : getDataChain ([] : List DataItem) = ([], none, 0) := by
        simp [getDataChain]
      rw [h0]
      exact ⟨fun _ => trivial, fun a ha => by simp at ha⟩
  | 0, _ :: _, hlen, _ => by simp at hlen
  | n + 1, d :: rest, hlen, h23 => by
      have hd23 := h23 d (List.mem_cons_self d rest)
      have hrest : invH23 rest := fun x hx => h23 x (List.mem_cons_of_mem d hx)
      have hlen1 : rest.length ≤ n := by
        simp only [List.length_cons] at hlen
        omega
      simp only [getDataChain]
      by_cases hmemo : (d.cachedDataDirty = true ∨ d.cachedData = none)
      · rw [if_pos hmemo]
        by_cases hm : d.hasMasterData = true
        · have hds0 : (if d.hasMasterData = true then d.masterData else none) =
              d.masterData := by rw [if_pos hm]
          rw [hds0]
          rcases hmv : d.masterData with _ | a
          · -- master flagged but unloaded: by the invariant there is no
            -- datastore, and by exclusion no source, so the result is none
            have hds : d.datastore = none := by
              rcases hd23.2 hm with hsome | hnone
              · rw [hmv] at hsome
                simp at hsome
              · exact hnone
            have hs : ¬d.dataSourceAttached = true := by
              rw [hd23.1 hm]
              simp
            dsimp only
            rw [if_neg hs]
            dsimp only
            refine ⟨fun _ => ⟨rfl, rfl, fun _ => ⟨rfl, hds⟩, fun ha => absurd ha hs⟩,
              fun a ha => ?_⟩
            simp at ha
          · -- in-memory master data: the head caches the processed array
            dsimp only
            by_cases hop : d.operations.isEmpty
            · rw [if_pos hop]
              exact ⟨fun hn => by simp at hn, fun a' ha' => ⟨_, rest, rfl, ha', rfl⟩⟩
            · rw [if_neg hop]
              exact ⟨fun hn => by simp at hn, fun a'' ha'' => ⟨_, rest, rfl, ha'', rfl⟩⟩
        · have hds0 : (if d.hasMasterData = true then d.masterData else none) =
              (none : Option NDArr) := by rw [if_neg hm]
          rw [hds0]
          dsimp only
          by_cases hs : d.dataSourceAttached = true
          · rw [if_pos hs]
            have hrec := getDataChain_postOk n (incRefChain rest)
              (by rw [length_incRefChain]; exact hlen1)
              (invH23_incRefChain rest hrest)
            rcases hB : getDataChain (incRefChain rest) with ⟨B, dd, k⟩
            rw [hB] at hrec
            dsimp only
            rcases dd with _ | a
            · -- the source chain produced none: everything is settled
              have hns : NoneSettled B := hrec.1 rfl
              dsimp only
              refine ⟨fun _ => ⟨rfl, rfl, fun hmm => absurd hmm hm,
                fun _ => noneSettled_decRefChain B hns⟩, fun a ha => ?_⟩
              simp at ha
            · -- the source chain produced data: the head caches it
              dsimp only
              by_cases hop : d.operations.isEmpty
              · rw [if_pos hop]
                exact ⟨fun hn => by simp at hn,
                  fun a' ha' => ⟨_, (decRefChain B).1, rfl, ha', rfl⟩⟩
              · rw [if_neg hop]
                exact ⟨fun hn => by simp at hn,
                  fun a'' ha'' => ⟨_, (decRefChain B).1, rfl, ha'', rfl⟩⟩
          · rw [if_neg hs]
            dsimp only
            refine ⟨fun _ => ⟨rfl, rfl, fun hmm => absurd hmm hm, fun ha => absurd ha hs⟩,
              fun a ha => ?_⟩
            simp at ha
      · rw [if_neg hmemo]
        push_neg at hmemo
        obtain ⟨hdirty, hcne⟩ := hmemo
        have hdirty' : d.cachedDataDirty = false := by
          simpa using hdirty
        refine ⟨fun hn => absurd ?_ hcne, fun a' ha' => ⟨d, rest, rfl, ?_, hdirty'⟩⟩
        · exact hn
        · exact ha'

/-- C7: calling get_data twice with no intervening mutation is idempotent:
under the master/source-exclusion invariant (which the asserts of C3
enforce) and with every master-flagged entity either loaded in memory or
having no datastore, the second call returns the same chain state
unchanged, the bit-identical result of the first call, and performs zero
`process_data` invocations — the memoized array (or settled absence of
data) is simply returned. -/
theorem getDataIdempotent (c : List DataItem)
    (h2 : ∀ x ∈ c, x.hasMasterData = true → x.dataSourceAttached = false)
    (h3 : ∀ x ∈ c, x.hasMasterData = true → x.masterData.isSome = true ∨ x.datastore = none) :
    getDataChain (getDataChain c).1 = ((getDataChain c).1, (getDataChain c).2.1, 0) := by
  have hpost := getDataChain_postOk c.length c le_rfl (fun x hx => ⟨h2 x hx, h3 x hx⟩)
  rcases hr : (getDataChain c).2.1 with _ | a
  · rw [hr] at hpost
    exact noneSettled_getDataChain (getDataChain c).1.length (getDataChain c).1
      le_rfl (hpost.1 rfl)
  · rw [hr] at hpost
    obtain ⟨h, t, hct, hcache, hdirty⟩ := hpost.2 a rfl
    rw [hct]
    simp only [getDataChain]
    rw [if_neg (by simp [hdirty, hcache])]
    rw [hcache]

/-- A standalone entity with in-memory master data, for the idempotence
witness. -/
def itemC7 : DataItem :=
  { blankItem with hasMasterData := true,
                   masterData := some { shape := [2], dtype := .int32, payload := [5, 7] },
                   masterDataShape := some [2],
                   masterDataDtype := some Dtype.int32 }

theorem getDataIdempotent_witness :
    (∀ x ∈ [itemC7], x.hasMasterData = true → x.dataSourceAttached = false) ∧
    (∀ x ∈ [itemC7], x.hasMasterData = true →
      x.masterData.isSome = true ∨ x.datastore = none) ∧
    getDataChain (getDataChain [itemC7]).1 =
      ((getDataChain [itemC7]).1, (getDataChain [itemC7]).2.1, 0) :=
  ⟨by decide, by decide,
    getDataIdempotent [itemC7] (by decide) (by decide)⟩

/-! ## Claim C9: calibration list length after set_master_data -/

/-- Head calibration-list length of a setMasterData result. -/
def headCalibLen (r : Except String (List DataItem × List ChangeEvent)) : Option Nat :=
  match r with
  | .ok (d :: _, _) => some d.intrinsicSpatialCalibrations.length
  | _ => none

/-- Like `sync_cons`, but also gives the resulting length: the head's
calibration list ends up with exactly `chainNdim` entries whenever the item
is not closed. -/
theorem sync_head_length (d : DataItem) (rest : List DataItem) (hc : d.closed = false) :
    ∃ cal, syncIntrinsicSpatialCalibrations (d :: rest) =
      { d with intrinsicSpatialCalibrations := cal } :: rest ∧
      cal.length = chainNdim (d :: rest) := by
  simp only [syncIntrinsicSpatialCalibrations]
  by_cases hcond : d.intrinsicSpatialCalibrations.length ≠ chainNdim (d :: rest) ∧ ¬d.closed
  · rw [if_pos hcond]
    exact ⟨_, rfl, padTruncCalibrations_length _ _⟩
  · rw [if_neg hcond]
    refine ⟨d.intrinsicSpatialCalibrations, rfl, ?_⟩
    by_contra hne
    exact hcond ⟨hne, by simp [hc]⟩

theorem chainNdim_withMaster (d : DataItem) (rest : List DataItem) (arr : NDArr)
    (hm : d.hasMasterData = true) (hsh : d.masterDataShape = some arr.shape)
    (hdt : d.masterDataDtype = some arr.dtype) :
    chainNdim (d :: rest) =
      (spatialShapeFromShapeAndDtype (applyShapeOps d.operations arr.shape arr.dtype).1
        (applyShapeOps d.operations arr.shape arr.dtype).2).length := by
  simp [chainNdim, spatialShapeChain, dataShapeAndDtypeChain, hm, hsh, hdt]

theorem applyShapeOps_disabled : ∀ (ops : List OperationItem) (s : List Nat) (t : Dtype),
    (∀ op ∈ ops, op.enabled = false) → applyShapeOps ops s t = (s, t)
  | [], _, _, _ => rfl
  | op :: ops, s, t, h => by
      have hop : op.enabled = false := h op (List.mem_cons_self op ops)
      show List.foldl _ (if op.enabled = true then _ else (s, t)) ops = (s, t)
      rw [hop]
      simp only [Bool.false_eq_true, if_false]
      exact applyShapeOps_disabled ops s t (fun o ho => h o (List.mem_cons_of_mem _ ho))

/-- An enabled operation whose shape transfer turns 1-d data into 2-d data
(with the matching data transform). -/
def reshapeOp : OperationItem :=
  { enabled := true
    transform := fun a => { shape := [3, 3], dtype := a.dtype, payload := a.payload }
    shapeTransfer := fun _ t => ([3, 3], t) }

/-- An entity with one enabled shape-changing operation and no data yet. -/
def opItem9 : DataItem := { blankItem with operations := [reshapeOp] }

/-- A 1-d four-element array. -/
def arr4 : NDArr := { shape := [4], dtype := .float64, payload := [0, 1, 2, 3] }

/-- C9 counterexample: set_master_data with a 1-d array on an entity carrying
an enabled shape-changing operation leaves a spatial calibration list of
length 2 (the processed dimensionality), not 1 (the new array's spatial
dimensionality). -/
theorem calibrationSyncUsesProcessedShape :
    headCalibLen (setMasterData [opItem9] (some arr4)) = some 2 ∧
    (spatialShapeFromShapeAndDtype arr4.shape arr4.dtype).length = 1 := by
  constructor <;> rfl

/-- C9 as amended: after a successful set_master_data (valid only without a
data source), the spatial calibration list length equals the spatial
dimensionality of the entity's processed shape — the new array's shape
threaded through the enabled operations' shape transfer — which coincides
with the new array's own spatial dimensionality whenever every operation is
disabled (in particular when there are none). -/
theorem calibrationLengthAmended (d : DataItem) (rest : List DataItem) (arr : NDArr)
    (hc : d.closed = false) (hs : d.dataSourceAttached = false) :
    headCalibLen (setMasterData (d :: rest) (some arr)) =
      some (spatialShapeFromShapeAndDtype
        (applyShapeOps d.operations arr.shape arr.dtype).1
        (applyShapeOps d.operations arr.shape arr.dtype).2).length ∧
    ((∀ op ∈ d.operations, op.enabled = false) →
      headCalibLen (setMasterData (d :: rest) (some arr)) =
        some (spatialShapeFromShapeAndDtype arr.shape arr.dtype).length) := by
  have hnotc : ¬(d.closed = true ∧ (some arr).isSome = true) := by simp [hc]
  have hnots : ¬((some arr).isSome = true ∧ d.dataSourceAttached = true) := by simp [hs]
  have hmain : headCalibLen (setMasterData (d :: rest) (some arr)) =
      some (spatialShapeFromShapeAndDtype
        (applyShapeOps d.operations arr.shape arr.dtype).1
        (applyShapeOps d.operations arr.shape arr.dtype).2).length := by
    simp only [setMasterData]
    rw [if_neg hnotc, if_neg hnots]
    obtain ⟨cal, hcal, hlen⟩ := sync_head_length
      { d with masterData := some arr, masterDataShape := (some arr).map NDArr.shape,
               masterDataDtype := (some arr).map NDArr.dtype,
               hasMasterData := (some arr).isSome } rest hc
    rw [hcal]
    simp only [headCalibLen]
    rw [(runChanges_preserves _ _).2.2.1]
    show some cal.length = _
    rw [hlen]
    exact congrArg some (chainNdim_withMaster _ rest arr rfl rfl rfl)
  refine ⟨hmain, fun hdis => ?_⟩
  rw [hmain, applyShapeOps_disabled d.operations arr.shape arr.dtype hdis]

theorem calibrationLengthAmended_witness :
    opItem9.closed = false ∧
    headCalibLen (setMasterData [opItem9] (some arr4)) =
      some (spatialShapeFromShapeAndDtype
        (applyShapeOps opItem9.operations arr4.shape arr4.dtype).1
        (applyShapeOps opItem9.operations arr4.shape arr4.dtype).2).length :=
  ⟨rfl, (calibrationLengthAmended opItem9 [] arr4 rfl rfl).1⟩

/-! ## Claim C5: computation-graph serialization round trip -/

/-- An integral constant node as built by direct construction. -/
def constTree : DNode := .constant 7 (.intV 3) (some .integral)

/-- The record `write()` emits for `constTree`. -/
def constRec : NodeRec :=
  { (baseRec .constant 7 []) with scalarType := some .integral, value := some (.intV 3) }

/-- C5 failing input: writing an integral constant and reading the record
back loses the `scalar_type` attribute (ConstantDataNode.read never assigns
it), so the reconstructed tree is not structurally equal to the original and
a second `write()` of it raises AttributeError instead of reproducing the
record. -/
theorem constantRoundTripFails :
    DNode.write constTree = .ok constRec ∧
    DNode.factory constRec = .ok (.constant 7 (.intV 3) none) ∧
    DNode.constant 7 (.intV 3) none ≠ constTree ∧
    DNode.write (.constant 7 (.intV 3) none) = .error "AttributeError: scalar_type" := by
  refine ⟨rfl, ?_, ?_, rfl⟩
  · simp only [DNode.factory, constRec, baseRec]
    rfl
  · simp [constTree]

end Nion
